import Mathlib

/-!
Verification of the CSV-to-SQL conversion, dialect translation, batch
execution and query layer of the DeepSight-AI repository.

The functions below are shallow embeddings of the Python sources
`src/data/models/convert.py`, `src/db/setup_database.py` and
`src/db/query_examples.py`.  Strings are Lean strings, cell values carry the
pandas missing sentinel explicitly, Python floats are modelled as IEEE-754
binary64 values: parsing a literal rounds its exact decimal value to the
nearest double (ties to even, overflow to infinity), and the exact decimal
value of that double is carried.  Python exceptions are modelled with
`Except`.  The float-to-text conversion prints the exact decimal expansion
of the carried value, which agrees with CPython `str` on values that are
exactly representable and print in plain notation; no claim below evaluates
it elsewhere.
-/

namespace DeepSight

set_option maxRecDepth 20000

/-- The single-quote character used by SQL string literals. -/
def sq : Char := Char.ofNat 39

/-- The single-quote character as a one-character string. -/
def sqs : String := String.singleton sq

/-- Characters removed by Python `str.strip()` (the ASCII whitespace set). -/
def pyIsSpace (c : Char) : Bool :=
  c == ' ' || c == Char.ofNat 9 || c == Char.ofNat 10 ||
  c == Char.ofNat 13 || c == Char.ofNat 11 || c == Char.ofNat 12

/-- Python `str.strip()` on a character list. -/
def pyStripL (l : List Char) : List Char :=
  ((l.dropWhile pyIsSpace).reverse.dropWhile pyIsSpace).reverse

/-- Python `str.strip()`. -/
def pyStrip (s : String) : String :=
  String.mk (pyStripL s.data)

/-- Python `str.lower()` on a character list (ASCII; the data is ASCII). -/
def lowerL (l : List Char) : List Char :=
  l.map Char.toLower

/-- Python `str.lower()`. -/
def pyLower (s : String) : String :=
  String.mk (lowerL s.data)

/-- Python substring test `pat in l` on character lists. -/
def containsSub (pat : List Char) : List Char → Bool
  | [] => pat.isPrefixOf []
  | c :: rest => pat.isPrefixOf (c :: rest) || containsSub pat rest

/-- A spreadsheet cell as the converter sees it: either the pandas missing
sentinel (for which `pd.isna` is true) or a string value. -/
inductive Cell where
  | na : Cell
  | str (s : String) : Cell
deriving DecidableEq

/-- Python `str(value)` on a cell (`str` of the missing float sentinel is
the text nan; every guarded use below is on non-missing cells). -/
def cellToStr : Cell → String
  | .na => "nan"
  | .str s => s

/-- The null guard shared by all four coercion functions:
`pd.isna(value) or value == a or str(value).strip() == a` for the empty
string a. -/
def cellNullGuard : Cell → Bool
  | .na => true
  | .str s => s == "" || pyStrip s == ""

/-- Python `str_value.replace(q, qq)` for the single-quote character q:
double every single quote. -/
def doubleQuotes : List Char → List Char
  | [] => []
  | c :: rest =>
    if c == sq then c :: c :: doubleQuotes rest else c :: doubleQuotes rest

/-- `escape_sql_string` from src/data/models/convert.py. -/
def escape_sql_string (v : Cell) : String :=
  if cellNullGuard v then "NULL"
  else sqs ++ String.mk (doubleQuotes (cellToStr v).data) ++ sqs

/-- `convert_to_sql_boolean` from src/data/models/convert.py. -/
def convert_to_sql_boolean (v : Cell) : String :=
  if cellNullGuard v then "NULL"
  else
    let sv := pyLower (pyStrip (cellToStr v))
    if sv ∈ ["true", "1", "yes", "t"] then "TRUE"
    else if sv ∈ ["false", "0", "no", "f"] then "FALSE"
    else "NULL"

/-- Numeric value of a digit string. -/
def digitsToNat (l : List Char) : Nat :=
  l.foldl (fun a c => 10 * a + (c.toNat - 48)) 0

/-- Gregorian leap-year rule, as used by Python `datetime`. -/
def isLeapYear (y : Nat) : Bool :=
  (y % 4 == 0 && y % 100 != 0) || y % 400 == 0

/-- Length of a month, as validated by Python `datetime`. -/
def daysInMonth (y m : Nat) : Nat :=
  if m == 2 then (if isLeapYear y then 29 else 28)
  else if m ∈ [4, 6, 9, 11] then 30
  else 31

/-- Split a character list at every occurrence of a separator character,
keeping empty pieces, exactly like Python `str.split(sep)`. -/
def splitOnCharAux (c : Char) : List Char → List Char → List (List Char)
  | [], acc => [acc.reverse]
  | d :: rest, acc =>
    if d == c then acc.reverse :: splitOnCharAux c rest []
    else splitOnCharAux c rest (d :: acc)

/-- Python `str.split(sep)` for a one-character separator. -/
def splitOnChar (c : Char) (l : List Char) : List (List Char) :=
  splitOnCharAux c l []

/-- Modelled from CPython `datetime.strptime(s, f)` for the year-month-day
format: the year is exactly four digits, month and day are one or two digits
(a leading zero is optional), the three fields are separated by single
dashes with nothing else around them, and the triple must be a real calendar
date (year at least 1, month 1..12, day within the month, leap years
handled). -/
def strptimeYmdOk (s : String) : Bool :=
  match splitOnChar (Char.ofNat 45) s.data with
  | [ys, ms, ds] =>
    ys.length == 4 && ys.all Char.isDigit &&
    (ms.length == 1 || ms.length == 2) && ms.all Char.isDigit &&
    (ds.length == 1 || ds.length == 2) && ds.all Char.isDigit &&
    (let y := digitsToNat ys
     let m := digitsToNat ms
     let d := digitsToNat ds
     decide (1 ≤ y ∧ 1 ≤ m ∧ m ≤ 12 ∧ 1 ≤ d ∧ d ≤ daysInMonth y m))
  | _ => false

/-- `convert_to_sql_date` from src/data/models/convert.py. -/
def convert_to_sql_date (v : Cell) : String :=
  if cellNullGuard v then "NULL"
  else
    let date_str := pyStrip (cellToStr v)
    if strptimeYmdOk date_str then sqs ++ date_str ++ sqs else "NULL"

/-- An exact decimal number: the value num times ten to the exp.  It is used
both for the exact value of a parsed decimal literal and for the exact
decimal value of a finite binary64 double (every finite double has one). -/
structure DecFloat where
  num : Int
  exp : Int
deriving DecidableEq

/-- A CPython float as this converter observes it: a finite value carried as
the exact decimal value of the parsed literal, a signed infinity, or nan. -/
inductive PyFloat where
  | finite (f : DecFloat) : PyFloat
  | pinf : PyFloat
  | ninf : PyFloat
  | nan : PyFloat
deriving DecidableEq

/-- Strip an optional leading sign; true means negative. -/
def splitSign : List Char → Bool × List Char
  | [] => (false, [])
  | c :: r =>
    if c == '+' then (false, r)
    else if c == '-' then (true, r)
    else (false, c :: r)

/-- Parse the unsigned decimal core of a CPython float literal (already
lower-cased): digits, an optional point with fraction digits, an optional
exponent; at least one mantissa digit; the whole list must be consumed. -/
def parseDecCore (l : List Char) : Option DecFloat :=
  let ip := l.takeWhile Char.isDigit
  let r1 := l.dropWhile Char.isDigit
  let fr := if r1.head? == some '.' then r1.tail.takeWhile Char.isDigit else []
  let r2 := if r1.head? == some '.' then r1.tail.dropWhile Char.isDigit else r1
  if ip.isEmpty && fr.isEmpty then none
  else
    let mant : Int := (digitsToNat (ip ++ fr) : Int)
    match r2 with
    | [] => some ⟨mant, -(fr.length : Int)⟩
    | e :: r3 =>
      if e == 'e' then
        let sg := splitSign r3
        let ed := sg.2.takeWhile Char.isDigit
        if ed.isEmpty || !(sg.2.dropWhile Char.isDigit).isEmpty then none
        else
          let ex : Int := if sg.1 then -(digitsToNat ed : Int) else (digitsToNat ed : Int)
          some ⟨mant, ex - (fr.length : Int)⟩
      else none

/-- Number of binary digits of a natural number (the fuel argument is an
upper bound on that number and is never exhausted). -/
def bitLenAux : Nat → Nat → Nat
  | 0, _ => 0
  | fuel + 1, n => if n == 0 then 0 else bitLenAux fuel (n / 2) + 1

/-- Number of binary digits of a natural number. -/
def bitLen (n : Nat) : Nat := bitLenAux n n

/-- Round the fraction a over b to the nearest integer, ties to even, for a
positive divisor b.  This is the IEEE-754 round-to-nearest-even rule. -/
def rne (a b : Nat) : Nat :=
  let q := a / b
  let r := a % b
  if 2 * r < b then q
  else if b < 2 * r then q + 1
  else if q % 2 == 0 then q else q + 1

/-- Whether the fraction a over b is at least two to the power d. -/
def geTwoPow (a b : Nat) (d : Int) : Bool :=
  if 0 ≤ d then decide (b * 2 ^ d.toNat ≤ a)
  else decide (b ≤ a * 2 ^ (-d).toNat)

/-- Canonical exact-decimal form: strip factors of ten from the fraction
part (the fuel bounds the number of digits stripped). -/
def normTens : Nat → Nat → Int → DecFloat
  | 0, n, e => ⟨(n : Int), e⟩
  | fuel + 1, n, e =>
    if e < 0 && n % 10 == 0 then normTens fuel (n / 10) (e + 1)
    else ⟨(n : Int), e⟩

/-- The exact decimal value of the binary number m times two to the t
(every binary64 value has one, since a power of two divides a power of
ten times an integer). -/
def binToDec (m : Nat) (t : Int) : DecFloat :=
  if 0 ≤ t then ⟨((m * 2 ^ t.toNat : Nat) : Int), 0⟩
  else
    let k := (-t).toNat
    normTens k (m * 5 ^ k) (-(k : Int))

/-- Modelled from IEEE-754 binary64 rounding as performed by CPython
`float(str)` on a decimal literal: the exact value mant times ten to the
exp10 (mant positive) is rounded to the nearest double with 53 significand
bits, ties to even; values at or beyond two to the 1024 give infinity,
subnormals and underflow to zero are handled at the minimum exponent.  The
result is the exact decimal value of the rounded double. -/
def roundToDouble (mant : Nat) (exp10 : Int) : PyFloat :=
  let a := if 0 ≤ exp10 then mant * 10 ^ exp10.toNat else mant
  let b := if 0 ≤ exp10 then 1 else 10 ^ (-exp10).toNat
  let d : Int := (bitLen a : Int) - (bitLen b : Int)
  let e : Int := if geTwoPow a b d then d else d - 1
  if 1024 ≤ e then .pinf
  else
    let s : Int := if e < -1022 then 1074 else 52 - e
    let m := if 0 ≤ s then rne (a * 2 ^ s.toNat) b
             else rne a (b * 2 ^ (-s).toNat)
    if e == 1023 && m == 2 ^ 53 then .pinf
    else .finite (binToDec m (-s))

/-- Modelled from CPython `float(str)`: strip whitespace, take an optional
sign, then either a named special (inf, infinity, nan, case-insensitive) or
a decimal literal with optional fraction and exponent, whose exact value is
rounded to the nearest IEEE-754 binary64 double (overflowing literals give
infinity).  Digit underscores are not modelled, and a negative zero is
carried as plain zero.  Returns none exactly where CPython raises
ValueError. -/
def pyFloatOfString (s : String) : Option PyFloat :=
  let sg := splitSign (pyStripL s.data)
  let low := lowerL sg.2
  if low == ['i', 'n', 'f'] || low == ['i', 'n', 'f', 'i', 'n', 'i', 't', 'y'] then
    some (if sg.1 then .ninf else .pinf)
  else if low == ['n', 'a', 'n'] then some .nan
  else
    match parseDecCore low with
    | some f =>
      if f.num == 0 then some (.finite ⟨0, 0⟩)
      else
        match roundToDouble f.num.toNat f.exp with
        | .finite g => some (.finite (if sg.1 then ⟨-g.num, g.exp⟩ else g))
        | .pinf => some (if sg.1 then .ninf else .pinf)
        | r => some r
    | none => none

/-- Python `float.is_integer()`: true only for finite integral values. -/
def pyIsInteger : PyFloat → Bool
  | .finite f =>
    if 0 ≤ f.exp then true
    else f.num % ((10 : Int) ^ (-f.exp).toNat) == 0
  | _ => false

/-- Integer division truncating toward zero, for a positive divisor. -/
def tdivInt (a : Int) (b : Nat) : Int :=
  if 0 ≤ a then Int.ofNat (a.toNat / b) else -Int.ofNat ((-a).toNat / b)

/-- Truncation toward zero of an exact decimal value. -/
def decTrunc (f : DecFloat) : Int :=
  if 0 ≤ f.exp then f.num * (10 : Int) ^ f.exp.toNat
  else tdivInt f.num ((10 : Nat) ^ (-f.exp).toNat)

/-- Python `int(x)` on a float: truncation toward zero; raises OverflowError
on an infinity and ValueError on nan. -/
def pyIntOfFloat : PyFloat → Except String Int
  | .finite f => .ok (decTrunc f)
  | .pinf => .error ("OverflowError")
  | .ninf => .error ("OverflowError")
  | .nan => .error ("ValueError")

/-- Drop trailing zero digits of a fraction part. -/
def stripTrailingZeros (l : List Char) : List Char :=
  (l.reverse.dropWhile (fun c => c == '0')).reverse

/-- The decimal digits of n padded with leading zeros to width k. -/
def natToDigitsPadded (k n : Nat) : List Char :=
  List.replicate (k - (toString n).data.length) '0' ++ (toString n).data

/-- Python `str(x)` on a float: prints the exact decimal expansion of the
carried value.  This agrees with CPython (which prints the shortest
round-tripping decimal) exactly on values whose literal was exactly
representable and prints in plain notation; CPython switches to exponent
notation for very large or very small magnitudes and abbreviates inexact
values, and prints a negative zero.  No claim evaluates this function
outside the agreeing range. -/
def pyReprFloat : PyFloat → String
  | .pinf => "inf"
  | .ninf => "-inf"
  | .nan => "nan"
  | .finite f =>
    let sgn := if f.num < 0 then "-" else ""
    let a := f.num.natAbs
    if 0 ≤ f.exp then
      sgn ++ toString (a * (10 : Nat) ^ f.exp.toNat) ++ "." ++ "0"
    else
      let k := (-f.exp).toNat
      let ipart := a / (10 : Nat) ^ k
      let rem := a % (10 : Nat) ^ k
      let fracs := stripTrailingZeros (natToDigitsPadded k rem)
      sgn ++ toString ipart ++ "." ++
        (if fracs.isEmpty then "0" else String.mk fracs)

/-- The scientific-notation test of `convert_to_sql_number`. -/
def hasSciMarker (s : String) : Bool :=
  containsSub ['e', '+'] (lowerL s.data) || containsSub ['e', '-'] (lowerL s.data)

/-- The exception classes caught by `convert_to_sql_number`. -/
def isCaughtNumErr (e : String) : Bool :=
  e == "ValueError" || e == "TypeError"

/-- `convert_to_sql_number` from src/data/models/convert.py (the Python
default for `is_decimal` is false).  An `Except.error` value is an exception
that escapes the function: only ValueError and TypeError are caught. -/
def convert_to_sql_number (v : Cell) (is_decimal : Bool) : Except String String :=
  if cellNullGuard v then .ok ("NULL")
  else
    let s := cellToStr v
    if hasSciMarker s then
      match pyFloatOfString s with
      | none => .ok ("NULL")
      | some f =>
        if is_decimal then .ok (pyReprFloat f)
        else if pyIsInteger f then
          match pyIntOfFloat f with
          | .ok n => .ok (toString n)
          | .error e => if isCaughtNumErr e then .ok ("NULL") else .error e
        else .ok (pyReprFloat f)
    else
      if is_decimal then
        match pyFloatOfString s with
        | none => .ok ("NULL")
        | some f => .ok (pyReprFloat f)
      else
        match pyFloatOfString s with
        | none => .ok ("NULL")
        | some f =>
          match pyIntOfFloat f with
          | .ok n => .ok (toString n)
          | .error e => if isCaughtNumErr e then .ok ("NULL") else .error e

/-- One left-to-right non-overlapping rewriting pass, the semantics of
Python `re.sub`: at each position, if the matcher fires, emit its
replacement and continue after the consumed text, otherwise keep one
character.  The fuel bounds the number of steps; every wrapper below passes
the input length, which suffices because every matcher consumes at least one
character. -/
def rewriteScanAux (m : List Char → Option (List Char × List Char)) :
    Nat → List Char → List Char
  | 0, l => l
  | _ + 1, [] => []
  | fuel + 1, c :: rest =>
    match m (c :: rest) with
    | some p => p.1 ++ rewriteScanAux m fuel p.2
    | none => c :: rewriteScanAux m fuel rest

/-- Python `re.sub` driven by a matcher. -/
def rewriteScan (m : List Char → Option (List Char × List Char))
    (l : List Char) : List Char :=
  rewriteScanAux m l.length l

/-- Matcher for a literal pattern: fires when the pattern starts here. -/
def literalStep (pat rep l : List Char) : Option (List Char × List Char) :=
  if !pat.isEmpty && pat.isPrefixOf l then some (rep, l.drop pat.length)
  else none

/-- Matcher for the pattern VARCHAR, open parenthesis, digits, close
parenthesis, replaced by TEXT. -/
def varcharStep (l : List Char) : Option (List Char × List Char) :=
  if (("VARCHAR(").data).isPrefixOf l then
    let r := l.drop 8
    let ds := r.takeWhile Char.isDigit
    if !ds.isEmpty && ((r.drop ds.length).head? == some (Char.ofNat 41)) then
      some ((("TEXT").data, r.drop (ds.length + 1)))
    else none
  else none

/-- Matcher for the pattern DECIMAL, open parenthesis, digits, comma,
digits, close parenthesis, replaced by REAL. -/
def decimalStep (l : List Char) : Option (List Char × List Char) :=
  if (("DECIMAL(").data).isPrefixOf l then
    let r := l.drop 8
    let ds := r.takeWhile Char.isDigit
    let r2 := r.drop ds.length
    if !ds.isEmpty && (r2.head? == some ',') then
      let es := r2.tail.takeWhile Char.isDigit
      if !es.isEmpty && ((r2.tail.drop es.length).head? == some (Char.ofNat 41)) then
        some ((("REAL").data, r2.tail.drop (es.length + 1)))
      else none
    else none
  else none

/-- Matcher for the lazy dot-all pattern COMMENT ON followed by anything up
to the first semicolon, removed entirely; without a later semicolon there is
no match. -/
def commentStep (l : List Char) : Option (List Char × List Char) :=
  if (("COMMENT ON ").data).isPrefixOf l then
    let r := l.drop 11
    let body := r.dropWhile (fun c => c != Char.ofNat 59)
    match body with
    | [] => none
    | _ :: rest => some (([], rest))
  else none

/-- The newline character. -/
def nl : Char := Char.ofNat 10

/-- Python `sep.join(pieces)` for a one-character separator. -/
def joinWith (sep : Char) : List (List Char) → List Char
  | [] => []
  | [x] => x
  | x :: y :: ys => x ++ sep :: joinWith sep (y :: ys)

/-- The final clean-up of `convert_postgres_to_sqlite`: split into lines,
strip each, drop the empty ones and those starting with a line comment. -/
def keptLines (l : List Char) : List (List Char) :=
  ((splitOnChar nl l).map pyStripL).filter
    (fun line => !line.isEmpty && !((("--").data).isPrefixOf line))

/-- `convert_postgres_to_sqlite` from src/db/setup_database.py: the five
re.sub passes in source order, then the line clean-up. -/
def convert_postgres_to_sqlite (s : String) : String :=
  let a := rewriteScan commentStep s.data
  let b := rewriteScan decimalStep a
  let c := rewriteScan varcharStep b
  let d := rewriteScan (literalStep (("BIGINT").data) (("INTEGER").data)) c
  let e := rewriteScan (literalStep (("BOOLEAN").data) (("INTEGER").data)) d
  String.mk (joinWith nl (keptLines e))

/-- Counters and traces of the statement-by-statement loop of
`execute_sql_file`: how many statements succeeded and failed, which
statements were executed on the cursor, and which failures received a
detailed log line. -/
structure ExecState where
  successful : Nat
  failed : Nat
  executed : List String
  logged : List String
deriving DecidableEq

/-- Python `statement.startswith` for the line-comment marker, over
characters. -/
def startsWithDashDash (s : String) : Bool :=
  (("--").data).isPrefixOf s.data

/-- The keep test of the per-statement loop, Python
`statement and not statement.startswith` with the line-comment marker. -/
def keepStmt (st : String) : Bool :=
  (st != "") && !(startsWithDashDash st)

/-- The body of the per-statement loop of `execute_sql_file`, for one raw
chunk.  The oracle `fails` tells whether `cursor.execute` raises
`sqlite3.Error` on a given statement; a failure is logged in detail only
while the failure count is at most 10. -/
def execStep (fails : String → Bool) (st : ExecState) (raw : String) : ExecState :=
  let statement := pyStrip raw
  if keepStmt statement then
    if fails statement then
      { st with
        failed := st.failed + 1
        logged :=
          if st.failed + 1 ≤ 10 then st.logged ++ [statement] else st.logged }
    else
      { st with
        successful := st.successful + 1
        executed := st.executed ++ [statement] }
  else st

/-- The per-statement loop of `execute_sql_file` over the raw chunks. -/
def runStatements (fails : String → Bool) (stmts : List String)
    (st : ExecState) : ExecState :=
  stmts.foldl (execStep fails) st

/-- The semicolon character. -/
def semi : Char := Char.ofNat 59

/-- The raw chunks of the fallback path: the translated content split on
every semicolon, exactly Python `sql_content.split` on the semicolon. -/
def fallbackChunks (content : String) : List String :=
  (splitOnChar semi content.data).map String.mk

/-- The statements the fallback path actually executes: stripped, non-empty,
not starting with a line comment. -/
def processedStatements (content : String) : List String :=
  ((fallbackChunks content).map pyStrip).filter keepStmt

/-- The fallback statement-by-statement path of `execute_sql_file`, run on
already-translated content under an execution oracle. -/
def execute_sql_file_fallback (fails : String → Bool) (content : String) :
    ExecState :=
  runStatements fails (fallbackChunks content) ⟨0, 0, [], []⟩

/-- One row of the ai_models table, restricted to the columns the modelled
queries read. -/
structure Row where
  model : Option String
  organization : Option String
  publication_date : Option String
  parameters : Option Int
  domain : Option String
  abstract : Option String
  training_compute_cost_usd : Option ℚ
  frontier_model : Option Int
deriving DecidableEq

/-- Insert into a list sorted by the given comes-no-later test. -/
def insertBy (le : α → α → Bool) (a : α) : List α → List α
  | [] => [a]
  | b :: rest => if le a b then a :: b :: rest else b :: insertBy le a rest

/-- Insertion sort by the given comes-no-later test (ORDER BY). -/
def sortBy (le : α → α → Bool) : List α → List α
  | [] => []
  | a :: rest => insertBy le a (sortBy le rest)

/-- Lexicographic order on character lists by code point, the order SQLite
uses to compare TEXT values (memcmp order; the data is ASCII). -/
def leListChar : List Char → List Char → Bool
  | [], _ => true
  | _ :: _, [] => false
  | a :: as, b :: bs =>
    if a.toNat < b.toNat then true
    else if b.toNat < a.toNat then false
    else leListChar as bs

/-- SQLite TEXT comparison. -/
def leStr (a b : String) : Bool :=
  leListChar a.data b.data

/-- DESC ordering on a nullable text column, nulls last as in SQLite. -/
def descOptStr (a b : Option String) : Bool :=
  match a, b with
  | some x, some y => leStr y x
  | some _, none => true
  | none, none => true
  | none, some _ => false

/-- DESC ordering on a nullable integer column, nulls last as in SQLite. -/
def descOptInt (a b : Option Int) : Bool :=
  match a, b with
  | some x, some y => decide (y ≤ x)
  | some _, none => true
  | none, none => true
  | none, some _ => false

/-- DESC ordering on a nullable real column, nulls last as in SQLite. -/
def descOptRat (a b : Option ℚ) : Bool :=
  match a, b with
  | some x, some y => decide (y ≤ x)
  | some _, none => true
  | none, none => true
  | none, some _ => false

/-- SQLite `col LIKE pattern` for a wildcard-wrapped pattern: the column is
non-null and contains the term, ASCII case-insensitively. -/
def likeWrapped (term : String) (col : Option String) : Bool :=
  match col with
  | some s => containsSub (lowerL term.data) (lowerL s.data)
  | none => false

/-- `get_largest_models` from src/db/query_examples.py (Python default for
the limit is 10). -/
def get_largest_models (limit : Nat) (tbl : List Row) : List Row :=
  (sortBy (fun a b => descOptInt a.parameters b.parameters)
    (tbl.filter (fun r => r.parameters ≠ none))).take limit

/-- `get_frontier_models` from src/db/query_examples.py (Python default for
the limit is 20). -/
def get_frontier_models (limit : Nat) (tbl : List Row) : List Row :=
  (sortBy (fun a b => descOptStr a.publication_date b.publication_date)
    (tbl.filter (fun r => r.frontier_model = some 1))).take limit

/-- `get_training_cost_analysis` from src/db/query_examples.py: no
parameter, hard-coded LIMIT 20. -/
def get_training_cost_analysis (tbl : List Row) : List Row :=
  (sortBy (fun a b =>
      descOptRat a.training_compute_cost_usd b.training_compute_cost_usd)
    (tbl.filter (fun r => r.training_compute_cost_usd ≠ none))).take 20

/-- `get_recent_models` from src/db/query_examples.py: its parameter is a
day count used to build the cutoff date, modelled here as the computed
cutoff date string; the query has no LIMIT clause. -/
def get_recent_models (cutoff : String) (tbl : List Row) : List Row :=
  sortBy (fun a b => descOptStr a.publication_date b.publication_date)
    (tbl.filter (fun r =>
      match r.publication_date with
      | some d => leStr cutoff d
      | none => false))

/-- `search_models` from src/db/query_examples.py: no limit parameter,
hard-coded LIMIT 50, wildcard-wrapped term matched against three columns
joined by OR. -/
def search_models (term : String) (tbl : List Row) : List Row :=
  (sortBy (fun a b => descOptStr a.publication_date b.publication_date)
    (tbl.filter (fun r =>
      likeWrapped term r.model || likeWrapped term r.organization ||
      likeWrapped term r.abstract))).take 50

/-- First four characters of an ISO date, the strftime year field. -/
def yearOf (d : String) : String :=
  String.mk (d.data.take 4)

/-- Distinct values in first-occurrence order, the GROUP BY keys. -/
def distinctKeys (keys : List String) : List String :=
  keys.foldl (fun acc k => if k ∈ acc then acc else acc ++ [k]) []

/-- `get_models_by_year` from src/db/query_examples.py (Python default for
the limit is 10): year of publication with model count, newest year first,
LIMIT bound to the parameter. -/
def get_models_by_year (limit : Nat) (tbl : List Row) : List (String × Nat) :=
  let years := (tbl.filterMap (fun r => r.publication_date)).map yearOf
  (sortBy (fun a b => leStr b.1 a.1)
    ((distinctKeys years).map
      (fun k => (k, (years.filter (fun y => y == k)).length)))).take limit

/-- `get_models_by_organization` from src/db/query_examples.py (Python
default for the limit is 10): organization with model count, largest count
first, LIMIT bound to the parameter. -/
def get_models_by_organization (limit : Nat) (tbl : List Row) :
    List (String × Nat) :=
  let orgs := tbl.filterMap (fun r => r.organization)
  (sortBy (fun a b => decide (b.2 ≤ a.2))
    ((distinctKeys orgs).map
      (fun k => (k, (orgs.filter (fun o => o == k)).length)))).take limit

/-- The domain-given branch of `get_models_by_domain` from
src/db/query_examples.py: LIKE filter on the domain, newest first, and no
LIMIT clause at all. -/
def get_models_by_domain_some (dom : String) (tbl : List Row) : List Row :=
  sortBy (fun a b => descOptStr a.publication_date b.publication_date)
    (tbl.filter (fun r => likeWrapped dom r.domain))

/-- The domain-omitted branch of `get_models_by_domain`: domain counts with
a hard-coded LIMIT 15. -/
def get_models_by_domain_none (tbl : List Row) : List (String × Nat) :=
  let ds := tbl.filterMap (fun r => r.domain)
  (sortBy (fun a b => decide (b.2 ≤ a.2))
    ((distinctKeys ds).map
      (fun k => (k, (ds.filter (fun d => d == k)).length)))).take 15

/-!  Claim-side definitions: these follow the words of the specification and
of the claims, to be compared with the source-side functions above. -/

/-- Decoding step from the round-trip claim: collapse each doubled single
quote back into one quote. -/
def collapseQuotes : List Char → List Char
  | [] => []
  | [c] => [c]
  | c :: d :: rest =>
    if c == sq && d == sq then c :: collapseQuotes rest
    else c :: collapseQuotes (d :: rest)

/-- Decoding of an emitted literal, per the round-trip claim: strip the two
outer quotes, then collapse each doubled quote; fails when the text is not a
quote-delimited literal. -/
def sqlDecode (lit : String) : Option String :=
  match lit.data with
  | [] => none
  | c :: rest =>
    if c == sq ∧ rest ≠ [] ∧ rest.getLast? = some sq then
      some (String.mk (collapseQuotes rest.dropLast))
    else none

/-- Helper: scans a character list keeping the length of the current run of
single quotes; true when every maximal run has even length. -/
def quoteRunsEvenAux : List Char → Nat → Bool
  | [], k => k % 2 == 0
  | c :: rest, k =>
    if c == sq then quoteRunsEvenAux rest (k + 1)
    else (k % 2 == 0) && quoteRunsEvenAux rest 0

/-- Every maximal run of single quotes in the list has even length. -/
def quoteRunsEven (l : List Char) : Bool :=
  quoteRunsEvenAux l 0

/-- The date shape named by the claim: the literal YYYY-MM-DD layout with a
four-digit year, a two-digit month and a two-digit day, forming a real
calendar date. -/
def claimYmdShape (s : String) : Bool :=
  match splitOnChar (Char.ofNat 45) s.data with
  | [ys, ms, ds] =>
    ys.length == 4 && ys.all Char.isDigit &&
    ms.length == 2 && ms.all Char.isDigit &&
    ds.length == 2 && ds.all Char.isDigit &&
    (let y := digitsToNat ys
     let m := digitsToNat ms
     let d := digitsToNat ds
     decide (1 ≤ y ∧ 1 ≤ m ∧ m ≤ 12 ∧ 1 ≤ d ∧ d ≤ daysInMonth y m))
  | _ => false

/-- The acceptance condition of the amended date claim, stated
declaratively: the value decomposes as year-dash-month-dash-day with a
four-digit year, a one-or-two digit month and day, and the triple is a real
calendar date. -/
def lenientYmd (s : String) : Prop :=
  ∃ ys ms ds : List Char,
    s.data = ys ++ Char.ofNat 45 :: (ms ++ Char.ofNat 45 :: ds) ∧
    ys.length = 4 ∧ (∀ c ∈ ys, c.isDigit) ∧
    (ms.length = 1 ∨ ms.length = 2) ∧ (∀ c ∈ ms, c.isDigit) ∧
    (ds.length = 1 ∨ ds.length = 2) ∧ (∀ c ∈ ds, c.isDigit) ∧
    1 ≤ digitsToNat ys ∧ 1 ≤ digitsToNat ms ∧ digitsToNat ms ≤ 12 ∧
    1 ≤ digitsToNat ds ∧
    digitsToNat ds ≤ daysInMonth (digitsToNat ys) (digitsToNat ms)

/-- Equality of `Except` results is decidable; used to evaluate the
embedding on concrete inputs. -/
instance {ε α : Type} [DecidableEq ε] [DecidableEq α] :
    DecidableEq (Except ε α) := fun x y =>
  match x, y with
  | .ok a, .ok b =>
    if h : a = b then isTrue (by rw [h])
    else isFalse (fun hh => h (Except.ok.inj hh))
  | .error a, .error b =>
    if h : a = b then isTrue (by rw [h])
    else isFalse (fun hh => h (Except.error.inj hh))
  | .ok _, .error _ => isFalse (fun hh => Except.noConfusion hh)
  | .error _, .ok _ => isFalse (fun hh => Except.noConfusion hh)

/-!  Support lemmas. -/

theorem doubleQuotes_nil_iff (l : List Char) : doubleQuotes l = [] ↔ l = [] := by
  cases l with
  | nil => simp [doubleQuotes]
  | cons c t =>
    constructor
    · intro h
      by_cases hc : c == sq <;> simp [doubleQuotes, hc] at h
    · intro h
      exact absurd h (by simp)

theorem collapse_double (l : List Char) :
    collapseQuotes (doubleQuotes l) = l := by
  induction l with
  | nil => rfl
  | cons c t ih =>
    by_cases hc : c == sq
    · have hc2 : c = sq := eq_of_beq hc
      subst hc2
      simp [doubleQuotes, collapseQuotes, ih]
    · cases hdt : doubleQuotes t with
      | nil =>
        have ht : t = [] := (doubleQuotes_nil_iff t).mp hdt
        subst ht
        simp [doubleQuotes, hc, collapseQuotes]
      | cons d r =>
        have : doubleQuotes (c :: t) = c :: d :: r := by
          simp [doubleQuotes, hc, hdt]
        rw [this, collapseQuotes]
        simp [hc, ← hdt, ih]

theorem quoteRunsEvenAux_double (l : List Char) (k : Nat) (hk : k % 2 = 0) :
    quoteRunsEvenAux (doubleQuotes l) k = true := by
  induction l generalizing k with
  | nil => simp [doubleQuotes, quoteRunsEvenAux, hk]
  | cons c t ih =>
    by_cases hc : c == sq
    · have hc2 : c = sq := eq_of_beq hc
      subst hc2
      have h2 : (k + 2) % 2 = 0 := by omega
      simp [doubleQuotes, quoteRunsEvenAux, ih (k + 2) h2]
    · simp [doubleQuotes, hc, quoteRunsEvenAux, hk, ih 0 rfl]

theorem pyStripL_allSpace (l : List Char) (h : ∀ c ∈ l, pyIsSpace c) :
    pyStripL l = [] := by
  have h1 : l.dropWhile pyIsSpace = [] := by
    rw [List.dropWhile_eq_nil_iff]
    exact h
  simp [pyStripL, h1]

theorem pyStrip_allSpace (s : String) (h : ∀ c ∈ s.data, pyIsSpace c) :
    pyStrip s = "" := by
  have h2 : pyStripL s.data = [] := pyStripL_allSpace s.data h
  simp [pyStrip, h2]

/-!  Claim C8. -/

/-- C8: for every cell value that is the missing sentinel, the empty string,
or whitespace-only, each of the four coercion functions returns the NULL
keyword (for the numeric coercion, in both modes and without raising). -/
theorem c8_missing_inputs_null :
    ∀ v : Cell,
      (v = Cell.na ∨ ∃ s, v = Cell.str s ∧ ∀ c ∈ s.data, pyIsSpace c) →
      escape_sql_string v = "NULL" ∧
      convert_to_sql_number v false = Except.ok ("NULL") ∧
      convert_to_sql_number v true = Except.ok ("NULL") ∧
      convert_to_sql_date v = "NULL" ∧
      convert_to_sql_boolean v = "NULL" := by
  intro v h
  have hg : cellNullGuard v = true := by
    rcases h with h | ⟨s, rfl, hs⟩
    · subst h; rfl
    · have h2 : pyStrip s = "" := pyStrip_allSpace s hs
      simp [cellNullGuard, h2]
  exact ⟨by simp [escape_sql_string, hg], by simp [convert_to_sql_number, hg],
    by simp [convert_to_sql_number, hg], by simp [convert_to_sql_date, hg],
    by simp [convert_to_sql_boolean, hg]⟩

/-- Witness for C8 at a concrete whitespace-only cell. -/
theorem c8_missing_inputs_null_witness :
    escape_sql_string (Cell.str ("  ")) = "NULL" ∧
    convert_to_sql_number (Cell.str ("  ")) false = Except.ok ("NULL") ∧
    convert_to_sql_number (Cell.str ("  ")) true = Except.ok ("NULL") ∧
    convert_to_sql_date (Cell.str ("  ")) = "NULL" ∧
    convert_to_sql_boolean (Cell.str ("  ")) = "NULL" :=
  c8_missing_inputs_null (Cell.str ("  ")) (Or.inr ⟨"  ", rfl, by decide⟩)

/-!  Claim C9. -/

/-- C9: on every input, string coercion emits either exactly the NULL
keyword or a literal delimited by single quotes whose interior has every
maximal run of quote characters of even length, so the literal terminates
exactly at its final quote. -/
theorem c9_literal_wellformed :
    ∀ v : Cell,
      escape_sql_string v = "NULL" ∨
      ∃ inner : List Char,
        (escape_sql_string v).data = sq :: (inner ++ [sq]) ∧
        quoteRunsEven inner = true := by
  intro v
  by_cases hg : cellNullGuard v = true
  · exact Or.inl (by simp [escape_sql_string, hg])
  · refine Or.inr ⟨doubleQuotes (cellToStr v).data, ?_, ?_⟩
    · have hg2 : cellNullGuard v = false := by
        simpa using hg
      simp [escape_sql_string, hg2, String.data_append]
      rfl
    · exact quoteRunsEvenAux_double _ 0 rfl

/-!  Claim C7. -/

/-- C7 counterexample: a whitespace-only value is a non-empty string, yet
string coercion emits the unquoted NULL keyword, whose decoding cannot give
back the original string. -/
theorem c7_roundtrip_cex :
    escape_sql_string (Cell.str (" ")) = "NULL" ∧
    sqlDecode (escape_sql_string (Cell.str (" "))) = none := by decide

/-- C7 amended: for every value that is not whitespace-only (hence for every
value containing a quote character), decoding the emitted literal by
stripping the outer quotes and collapsing doubled quotes yields the original
string. -/
theorem c7_roundtrip :
    ∀ s : String, pyStrip s ≠ "" →
      sqlDecode (escape_sql_string (Cell.str s)) = some s := by
  intro s hs
  have hse : s ≠ "" := by
    intro h
    exact hs (by rw [h]; rfl)
  have hg : cellNullGuard (Cell.str s) = false := by
    simp [cellNullGuard]
    exact ⟨hse, hs⟩
  have hdata : (escape_sql_string (Cell.str s)).data =
      sq :: (doubleQuotes s.data ++ [sq]) := by
    simp [escape_sql_string, hg, String.data_append]
    rfl
  have hrest : doubleQuotes s.data ++ [sq] ≠ [] := by simp
  rw [sqlDecode, hdata]
  simp [hrest, List.getLast?_concat, List.dropLast_concat, collapse_double]

/-- Witness for C7 at the name containing a quote from the specification. -/
theorem c7_roundtrip_witness :
    pyStrip ("O" ++ sqs ++ "Brien") ≠ "" ∧
    sqlDecode (escape_sql_string (Cell.str ("O" ++ sqs ++ "Brien"))) =
      some ("O" ++ sqs ++ "Brien") :=
  ⟨by decide, c7_roundtrip ("O" ++ sqs ++ "Brien") (by decide)⟩

/-!  Claim C2. -/

/-- C2: the numeric coercion is not total.  On the value inf in integer
mode, `int(float(value))` raises OverflowError, which the except clause
(ValueError, TypeError) does not catch, so the exception escapes to the
caller; ordinary unparseable text degrades to NULL as the claim states. -/
theorem c2_overflow_escapes :
    convert_to_sql_number (Cell.str ("inf")) false =
      Except.error ("OverflowError") ∧
    convert_to_sql_number (Cell.str ("Infinity")) false =
      Except.error ("OverflowError") ∧
    convert_to_sql_number (Cell.str ("abc")) false = Except.ok ("NULL") := by
  decide

/-!  Claim C1. -/

/-- C1 counterexample: the value 1.5 is non-missing, non-empty, has no
scientific-notation marker and is not mathematically an integer, yet integer
mode returns the truncation 1 instead of keeping the decimal representation
1.5. -/
theorem c1_integer_mode_cex :
    convert_to_sql_number (Cell.str ("1.5")) false = Except.ok ("1") ∧
    pyFloatOfString ("1.5") = some (PyFloat.finite ⟨15, -1⟩) ∧
    pyIsInteger (PyFloat.finite ⟨15, -1⟩) = false ∧
    pyReprFloat (PyFloat.finite ⟨15, -1⟩) = "1.5" ∧
    ("1" : String) ≠ "1.5" := by decide

/-- C1 amended: for every non-missing, non-empty value without
scientific-notation markers whose parse succeeds with a finite value,
integer mode always returns the decimal string of the truncation toward
zero of the parsed value; the mathematically-an-integer test is applied only
in the scientific-notation branch. -/
theorem c1_integer_mode_truncates :
    ∀ (s : String) (f : DecFloat),
      cellNullGuard (Cell.str s) = false →
      hasSciMarker s = false →
      pyFloatOfString s = some (PyFloat.finite f) →
      convert_to_sql_number (Cell.str s) false =
        Except.ok (toString (decTrunc f)) := by
  intro s f h1 h2 h3
  simp [convert_to_sql_number, h1, h2, h3, cellToStr, pyIntOfFloat]

/-- Witness for C1 amended, at 7.5 (exactly representable, truncated to 7)
and at an 18-digit integer whose parse rounds to the nearest double, so the
emitted integer is the rounded value 123456789012345680, as the program
produces. -/
theorem c1_integer_mode_truncates_witness :
    (cellNullGuard (Cell.str ("7.5")) = false ∧
      hasSciMarker ("7.5") = false ∧
      pyFloatOfString ("7.5") = some (PyFloat.finite ⟨75, -1⟩) ∧
      convert_to_sql_number (Cell.str ("7.5")) false =
        Except.ok (toString (decTrunc ⟨75, -1⟩))) ∧
    (pyFloatOfString ("123456789012345678") =
        some (PyFloat.finite ⟨123456789012345680, 0⟩) ∧
      convert_to_sql_number (Cell.str ("123456789012345678")) false =
        Except.ok (toString (decTrunc ⟨123456789012345680, 0⟩)) ∧
      toString (decTrunc (⟨123456789012345680, 0⟩ : DecFloat)) =
        "123456789012345680") :=
  ⟨⟨by decide, by decide, by decide,
    c1_integer_mode_truncates ("7.5") ⟨75, -1⟩ (by decide) (by decide)
      (by decide)⟩,
    ⟨by decide,
      c1_integer_mode_truncates ("123456789012345678")
        ⟨123456789012345680, 0⟩ (by decide) (by decide) (by decide),
      by decide⟩⟩

/-!  Support lemmas for the batch executor. -/

theorem length_filter_split (p : α → Bool) (l : List α) :
    (l.filter p).length + (l.filter (fun a => !p a)).length = l.length := by
  induction l with
  | nil => rfl
  | cons a t ih => by_cases h : p a <;> simp [List.filter, h] <;> omega

theorem runStatements_spec (fails : String → Bool) :
    ∀ (stmts : List String) (st : ExecState),
      (runStatements fails stmts st).successful =
        st.successful +
          (((stmts.map pyStrip).filter keepStmt).filter
            (fun t => !fails t)).length ∧
      (runStatements fails stmts st).failed =
        st.failed +
          (((stmts.map pyStrip).filter keepStmt).filter fails).length ∧
      (runStatements fails stmts st).executed =
        st.executed ++
          ((stmts.map pyStrip).filter keepStmt).filter (fun t => !fails t) ∧
      (runStatements fails stmts st).logged.length =
        st.logged.length +
          (min (st.failed +
            (((stmts.map pyStrip).filter keepStmt).filter fails).length) 10 -
            min st.failed 10) := by
  intro stmts
  induction stmts with
  | nil =>
    intro st
    simp [runStatements]
  | cons raw rest ih =>
    intro st
    have hstep : runStatements fails (raw :: rest) st =
        runStatements fails rest (execStep fails st raw) := rfl
    by_cases hk : keepStmt (pyStrip raw) = true
    · have hkc : ((raw :: rest).map pyStrip).filter keepStmt =
          pyStrip raw :: (rest.map pyStrip).filter keepStmt := by
        simp [List.filter_cons, hk]
      by_cases hf : fails (pyStrip raw) = true
      · have hexec : execStep fails st raw =
            { st with
              failed := st.failed + 1
              logged :=
                if st.failed + 1 ≤ 10 then st.logged ++ [pyStrip raw]
                else st.logged } := by
          simp only [execStep]
          rw [if_pos hk, if_pos hf]
        obtain ⟨h1, h2, h3, h4⟩ := ih (execStep fails st raw)
        rw [hexec] at h1 h2 h3 h4
        refine ⟨?_, ?_, ?_, ?_⟩ <;> rw [hstep, hexec, hkc]
        · rw [h1]
          simp [List.filter_cons, hf]
        · rw [h2]
          simp [List.filter_cons, hf]
          omega
        · rw [h3]
          simp [List.filter_cons, hf]
        · rw [h4]
          simp only [List.filter_cons, hf, if_pos, List.length_cons]
          by_cases hten : st.failed + 1 ≤ 10 <;>
            simp [hten, List.length_append] <;> omega
      · have hf2 : fails (pyStrip raw) = false := by
          simpa using hf
        have hexec : execStep fails st raw =
            { st with
              successful := st.successful + 1
              executed := st.executed ++ [pyStrip raw] } := by
          simp only [execStep]
          rw [if_pos hk, if_neg hf]
        obtain ⟨h1, h2, h3, h4⟩ := ih (execStep fails st raw)
        rw [hexec] at h1 h2 h3 h4
        refine ⟨?_, ?_, ?_, ?_⟩ <;> rw [hstep, hexec, hkc]
        · rw [h1]
          simp [List.filter_cons, hf2]
          omega
        · rw [h2]
          simp [List.filter_cons, hf2]
        · rw [h3]
          simp [List.filter_cons, hf2]
        · rw [h4]
          simp [List.filter_cons, hf2]
    · have hk2 : keepStmt (pyStrip raw) = false := by
        simpa using hk
      have hkc : ((raw :: rest).map pyStrip).filter keepStmt =
          (rest.map pyStrip).filter keepStmt := by
        simp [List.filter_cons, hk2]
      have hexec : execStep fails st raw = st := by
        simp only [execStep]
        rw [if_neg hk]
      obtain ⟨h1, h2, h3, h4⟩ := ih st
      refine ⟨?_, ?_, ?_, ?_⟩ <;> rw [hstep, hexec, hkc]
      · exact h1
      · exact h2
      · exact h3
      · exact h4

/-!  Claim C3. -/

/-- C3: in the fallback statement-by-statement path, when exactly one of the
processed statements fails, the failure count is 1, all other statements are
executed, and per-statement failures never abort the remainder; in general
the number of detailed failure logs is capped at the first 10 failures. -/
theorem c3_one_failure_commits_rest :
    ∀ (fails : String → Bool) (content : String),
      (((processedStatements content).filter fails).length = 1 →
        (execute_sql_file_fallback fails content).failed = 1 ∧
        (execute_sql_file_fallback fails content).successful =
          (processedStatements content).length - 1 ∧
        (execute_sql_file_fallback fails content).executed =
          (processedStatements content).filter (fun t => !fails t)) ∧
      (execute_sql_file_fallback fails content).logged.length =
        min (execute_sql_file_fallback fails content).failed 10 := by
  intro fails content
  have hspec := runStatements_spec fails (fallbackChunks content) ⟨0, 0, [], []⟩
  rcases hspec with ⟨h1, h2, h3, h4⟩
  have hkept : ((fallbackChunks content).map pyStrip).filter keepStmt =
      processedStatements content := rfl
  rw [hkept] at h1 h2 h3 h4
  have e1 : (⟨0, 0, [], []⟩ : ExecState).successful = 0 := rfl
  have e2 : (⟨0, 0, [], []⟩ : ExecState).failed = 0 := rfl
  have e3 : (⟨0, 0, [], []⟩ : ExecState).executed = ([] : List String) := rfl
  have e4 : ((⟨0, 0, [], []⟩ : ExecState).logged).length = 0 := rfl
  rw [e1] at h1
  rw [e2] at h2 h4
  rw [e3] at h3
  rw [e4] at h4
  constructor
  · intro hone
    have hsplit := length_filter_split fails (processedStatements content)
    refine ⟨?_, ?_, ?_⟩
    · rw [execute_sql_file_fallback, h2, hone]
    · rw [execute_sql_file_fallback, h1]
      omega
    · rw [execute_sql_file_fallback, h3]
      rfl
  · rw [execute_sql_file_fallback, h4, h2]
    omega

/-- Witness for C3: one bad statement among three; the two good ones are
executed and the failure count is 1. -/
theorem c3_one_failure_commits_rest_witness :
    ((processedStatements ("CREATE TABLE a (x INTEGER);BAD;CREATE TABLE b (y INTEGER)")).filter
      (fun t => t == ("BAD" : String))).length = 1 ∧
    (execute_sql_file_fallback (fun t => t == ("BAD" : String))
      ("CREATE TABLE a (x INTEGER);BAD;CREATE TABLE b (y INTEGER)")).failed = 1 ∧
    (execute_sql_file_fallback (fun t => t == ("BAD" : String))
      ("CREATE TABLE a (x INTEGER);BAD;CREATE TABLE b (y INTEGER)")).successful =
      (processedStatements
        ("CREATE TABLE a (x INTEGER);BAD;CREATE TABLE b (y INTEGER)")).length - 1 ∧
    (execute_sql_file_fallback (fun t => t == ("BAD" : String))
      ("CREATE TABLE a (x INTEGER);BAD;CREATE TABLE b (y INTEGER)")).executed =
      (processedStatements
        ("CREATE TABLE a (x INTEGER);BAD;CREATE TABLE b (y INTEGER)")).filter
        (fun t => !(t == ("BAD" : String))) :=
  ⟨by decide,
    ((c3_one_failure_commits_rest (fun t => t == ("BAD" : String))
      ("CREATE TABLE a (x INTEGER);BAD;CREATE TABLE b (y INTEGER)")).1
      (by decide)).1,
    ((c3_one_failure_commits_rest (fun t => t == ("BAD" : String))
      ("CREATE TABLE a (x INTEGER);BAD;CREATE TABLE b (y INTEGER)")).1
      (by decide)).2.1,
    ((c3_one_failure_commits_rest (fun t => t == ("BAD" : String))
      ("CREATE TABLE a (x INTEGER);BAD;CREATE TABLE b (y INTEGER)")).1
      (by decide)).2.2⟩

/-!  Claim C10. -/

theorem splitOnCharAux_no_sep (sep : Char) :
    ∀ (l acc : List Char), (∀ x ∈ acc, x ≠ sep) →
      ∀ p ∈ splitOnCharAux sep l acc, ∀ x ∈ p, x ≠ sep := by
  intro l
  induction l with
  | nil =>
    intro acc hacc p hp x hx
    simp [splitOnCharAux] at hp
    subst hp
    exact hacc x (by simpa using hx)
  | cons d rest ih =>
    intro acc hacc p hp x hx
    by_cases hd : (d == sep) = true
    · simp only [splitOnCharAux] at hp
      rw [if_pos hd] at hp
      rcases List.mem_cons.mp hp with hp | hp
      · subst hp
        exact hacc x (by simpa using hx)
      · exact ih [] (by simp) p hp x hx
    · simp only [splitOnCharAux] at hp
      rw [if_neg hd] at hp
      refine ih (d :: acc) ?_ p hp x hx
      intro y hy
      rcases List.mem_cons.mp hy with hy | hy
      · subst hy
        intro hcon
        exact hd (by simp [hcon])
      · exact hacc y hy

theorem mem_pyStripL {x : Char} {l : List Char} (h : x ∈ pyStripL l) : x ∈ l := by
  rw [pyStripL, List.mem_reverse] at h
  have h2 := (List.dropWhile_sublist pyIsSpace).subset h
  rw [List.mem_reverse] at h2
  exact (List.dropWhile_sublist pyIsSpace).subset h2

/-- C10: the fallback path splits the translated script on every semicolon
character, including those inside quoted SQL string literals: every executed
statement is semicolon-free, and the concrete insert whose quoted value
contains a semicolon is cut into two fragments, so the full statement is
never executed as a single statement. -/
theorem c10_split_inside_quotes :
    (∀ (content stmt : String), stmt ∈ processedStatements content →
      semi ∉ stmt.data) ∧
    processedStatements
      ("INSERT INTO t VALUES (" ++ sqs ++ "a;b" ++ sqs ++ ");") =
      ["INSERT INTO t VALUES (" ++ sqs ++ "a", "b" ++ sqs ++ ")"] ∧
    ("INSERT INTO t VALUES (" ++ sqs ++ "a;b" ++ sqs ++ ")") ∉
      processedStatements
        ("INSERT INTO t VALUES (" ++ sqs ++ "a;b" ++ sqs ++ ");") := by
  refine ⟨?_, by decide, by decide⟩
  intro content stmt hmem hsemi
  rcases List.mem_filter.mp hmem with ⟨hmem2, _⟩
  rcases List.mem_map.mp hmem2 with ⟨chunk, hchunk, rfl⟩
  rcases List.mem_map.mp hchunk with ⟨p, hp, rfl⟩
  have hdata : (pyStrip (String.mk p)).data = pyStripL p := rfl
  rw [hdata] at hsemi
  have hinp : semi ∈ p := mem_pyStripL hsemi
  exact splitOnCharAux_no_sep semi content.data [] (by simp) p hp semi hinp rfl

/-- Witness for C10: the first fragment of the cut statement is
semicolon-free, via the general part of the theorem. -/
theorem c10_split_inside_quotes_witness :
    semi ∉ ("INSERT INTO t VALUES (" ++ sqs ++ "a" : String).data :=
  c10_split_inside_quotes.1
    ("INSERT INTO t VALUES (" ++ sqs ++ "a;b" ++ sqs ++ ");")
    ("INSERT INTO t VALUES (" ++ sqs ++ "a") (by decide)

/-!  Claim C4: support lemmas for the query layer. -/

theorem leListChar_refl (l : List Char) : leListChar l l = true := by
  induction l with
  | nil => rfl
  | cons a as ih => simp [leListChar, ih]

theorem length_insertBy (le : α → α → Bool) (a : α) (l : List α) :
    (insertBy le a l).length = l.length + 1 := by
  induction l with
  | nil => rfl
  | cons b rest ih =>
    by_cases h : le a b = true <;> simp [insertBy, h, ih]

theorem length_sortBy (le : α → α → Bool) (l : List α) :
    (sortBy le l).length = l.length := by
  induction l with
  | nil => rfl
  | cons a rest ih => simp [sortBy, length_insertBy, ih]

/-- C4 counterexample: `get_recent_models` has no LIMIT clause at all, so a
table of 51 rows inside the date window comes back whole, exceeding every
fixed limit appearing in the query catalog (the largest is 50). -/
theorem c4_row_limit_cex :
    (get_recent_models ("2020-01-01")
      (List.replicate 51
        (⟨none, none, some ("2021-01-01"), none, none, none, none,
          none⟩ : Row))).length = 51 ∧
    ¬ (get_recent_models ("2020-01-01")
      (List.replicate 51
        (⟨none, none, some ("2021-01-01"), none, none, none, none,
          none⟩ : Row))).length ≤ 50 := by
  have h : (get_recent_models ("2020-01-01")
      (List.replicate 51
        (⟨none, none, some ("2021-01-01"), none, none, none, none,
          none⟩ : Row))).length = 51 := by
    rw [get_recent_models, length_sortBy]
    rw [List.filter_replicate]
    simp only []
    rw [if_pos (by decide)]
    simp
  exact ⟨h, by omega⟩

/-- C4 amended: the four queries with a limit parameter return at most that
many records, search and cost analysis are capped by their hard-coded limits
50 and 20 and the parameterless domain report by 15; but `get_recent_models`
(whose parameter is a day window, not a row limit) applies no limit and can
return arbitrarily many records, as can the domain-given branch of
`get_models_by_domain`. -/
theorem c4_row_limits :
    (∀ (limit : Nat) (tbl : List Row),
      (get_models_by_year limit tbl).length ≤ limit ∧
      (get_largest_models limit tbl).length ≤ limit ∧
      (get_models_by_organization limit tbl).length ≤ limit ∧
      (get_frontier_models limit tbl).length ≤ limit) ∧
    (∀ (term : String) (tbl : List Row),
      (search_models term tbl).length ≤ 50) ∧
    (∀ tbl : List Row, (get_training_cost_analysis tbl).length ≤ 20) ∧
    (∀ tbl : List Row, (get_models_by_domain_none tbl).length ≤ 15) ∧
    (∀ (cutoff : String) (n : Nat), ∃ tbl : List Row,
      (get_recent_models cutoff tbl).length = n ∧
      (get_models_by_domain_some ("") tbl).length = n) := by
  refine ⟨?_, ?_, ?_, ?_, ?_⟩
  · intro limit tbl
    exact ⟨List.length_take_le .., List.length_take_le ..,
      List.length_take_le .., List.length_take_le ..⟩
  · intro term tbl
    exact List.length_take_le ..
  · intro tbl
    exact List.length_take_le ..
  · intro tbl
    exact List.length_take_le ..
  · intro cutoff n
    refine ⟨List.replicate n
      ⟨none, none, some cutoff, none, some (""), none, none, none⟩, ?_, ?_⟩
    · rw [get_recent_models, length_sortBy, List.filter_replicate]
      simp [leStr, leListChar_refl]
    · rw [get_models_by_domain_some, length_sortBy, List.filter_replicate]
      simp [likeWrapped, containsSub, lowerL]

/-!  Claim C5: split/join round-trip lemmas and the date-shape analysis. -/

theorem splitOnCharAux_ne_nil (sep : Char) :
    ∀ (l acc : List Char), splitOnCharAux sep l acc ≠ [] := by
  intro l
  induction l with
  | nil =>
    intro acc
    simp [splitOnCharAux]
  | cons d rest ih =>
    intro acc
    by_cases hd : (d == sep) = true
    · simp only [splitOnCharAux]
      rw [if_pos hd]
      simp
    · simp only [splitOnCharAux]
      rw [if_neg hd]
      exact ih (d :: acc)

theorem splitOnCharAux_all_no_sep (sep : Char) :
    ∀ (a acc : List Char), (∀ x ∈ a, x ≠ sep) →
      splitOnCharAux sep a acc = [acc.reverse ++ a] := by
  intro a
  induction a with
  | nil =>
    intro acc _
    simp [splitOnCharAux]
  | cons c t ih =>
    intro acc h
    have hc : (c == sep) = false := by
      simp
      exact h c (by simp)
    simp only [splitOnCharAux]
    rw [if_neg (by simp [hc])]
    rw [ih (c :: acc) (fun x hx => h x (by simp [hx]))]
    simp

theorem splitOnCharAux_append (sep : Char) :
    ∀ (a acc rest : List Char), (∀ x ∈ a, x ≠ sep) →
      splitOnCharAux sep (a ++ sep :: rest) acc =
        (acc.reverse ++ a) :: splitOnChar sep rest := by
  intro a
  induction a with
  | nil =>
    intro acc rest _
    simp only [List.nil_append, splitOnCharAux]
    rw [if_pos (by simp)]
    simp [splitOnChar]
  | cons c t ih =>
    intro acc rest h
    have hc : (c == sep) = false := by
      simp
      exact h c (by simp)
    have hih := ih (c :: acc) rest (fun x hx => h x (by simp [hx]))
    have hstep : splitOnCharAux sep ((c :: t) ++ sep :: rest) acc =
        splitOnCharAux sep (t ++ sep :: rest) (c :: acc) := by
      simp only [List.cons_append, splitOnCharAux]
      rw [if_neg (by simp [hc])]
      rfl
    rw [hstep, hih]
    simp

theorem joinWith_splitOnCharAux (sep : Char) :
    ∀ (l acc : List Char),
      joinWith sep (splitOnCharAux sep l acc) = acc.reverse ++ l := by
  intro l
  induction l with
  | nil =>
    intro acc
    simp [splitOnCharAux, joinWith]
  | cons d rest ih =>
    intro acc
    by_cases hd : (d == sep) = true
    · have hdeq : d = sep := by simpa using hd
      simp only [splitOnCharAux]
      rw [if_pos hd]
      cases hsp : splitOnCharAux sep rest [] with
      | nil => exact absurd hsp (splitOnCharAux_ne_nil sep rest [])
      | cons y ys =>
        rw [joinWith]
        rw [← hsp]
        rw [ih []]
        simp [hdeq]
    · simp only [splitOnCharAux]
      rw [if_neg hd]
      rw [ih (d :: acc)]
      simp

theorem quoted_ne_null (t : String) : sqs ++ t ++ sqs ≠ "NULL" := by
  intro h
  have hd := congrArg String.data h
  simp [String.data_append] at hd
  have hh : sq = Char.ofNat 78 := by
    have := congrArg List.head? hd
    simpa [sqs] using this
  exact absurd hh (by decide)

/-- The operational strptime test accepts exactly the declarative lenient
year-month-day decompositions. -/
theorem strptime_iff_lenient (s : String) :
    strptimeYmdOk s = true ↔ lenientYmd s := by
  constructor
  · intro hok
    unfold strptimeYmdOk at hok
    split at hok
    case h_2 => exact absurd hok (by simp)
    case h_1 ys ms ds heq =>
      have hjoin := joinWith_splitOnCharAux (Char.ofNat 45) s.data []
      rw [splitOnChar] at heq
      rw [heq] at hjoin
      simp only [List.reverse_nil, List.nil_append] at hjoin
      have hdec : s.data = ys ++ Char.ofNat 45 :: (ms ++ Char.ofNat 45 :: ds) := by
        rw [← hjoin]
        simp [joinWith]
      simp only [Bool.and_eq_true, beq_iff_eq, Bool.or_eq_true,
        decide_eq_true_eq, List.all_eq_true] at hok
      obtain ⟨⟨⟨⟨⟨⟨hy, hyd⟩, hm⟩, hmd⟩, hd⟩, hdd⟩, hrange⟩ := hok
      exact ⟨ys, ms, ds, hdec, hy, hyd, by simpa using hm, hmd,
        by simpa using hd, hdd, hrange.1, hrange.2.1, hrange.2.2.1,
        hrange.2.2.2.1, hrange.2.2.2.2⟩
  · intro hlen
    obtain ⟨ys, ms, ds, hdec, hy, hyd, hm, hmd, hd, hdd, hr1, hr2, hr3,
      hr4, hr5⟩ := hlen
    have hnody : ∀ x ∈ ys, x ≠ Char.ofNat 45 := by
      intro x hx hcon
      have := hyd x hx
      rw [hcon] at this
      exact absurd this (by decide)
    have hnodm : ∀ x ∈ ms, x ≠ Char.ofNat 45 := by
      intro x hx hcon
      have := hmd x hx
      rw [hcon] at this
      exact absurd this (by decide)
    have hnodd : ∀ x ∈ ds, x ≠ Char.ofNat 45 := by
      intro x hx hcon
      have := hdd x hx
      rw [hcon] at this
      exact absurd this (by decide)
    have hsplit : splitOnChar (Char.ofNat 45) s.data = [ys, ms, ds] := by
      rw [hdec, splitOnChar]
      rw [splitOnCharAux_append (Char.ofNat 45) ys [] (ms ++ Char.ofNat 45 :: ds) hnody]
      rw [splitOnChar]
      rw [splitOnCharAux_append (Char.ofNat 45) ms [] ds hnodm]
      rw [splitOnChar]
      rw [splitOnCharAux_all_no_sep (Char.ofNat 45) ds [] hnodd]
      simp
    unfold strptimeYmdOk
    rw [hsplit]
    simp only [Bool.and_eq_true, beq_iff_eq, Bool.or_eq_true,
      decide_eq_true_eq, List.all_eq_true]
    exact ⟨⟨⟨⟨⟨⟨hy, hyd⟩, by simpa using hm⟩, hmd⟩, by simpa using hd⟩, hdd⟩,
      hr1, hr2, hr3, hr4, hr5⟩

/-- C5 counterexample: the value 2023-1-5 does not have the two-digit
YYYY-MM-DD shape the claim names, yet strict strptime validation accepts
one-digit months and days, so the code emits it as a quoted literal instead
of NULL; the claim's own NULL examples do hold. -/
theorem c5_date_shape_cex :
    convert_to_sql_date (Cell.str ("2023-1-5")) = sqs ++ "2023-1-5" ++ sqs ∧
    claimYmdShape ("2023-1-5") = false ∧
    convert_to_sql_date (Cell.str ("2023-13-01")) = "NULL" ∧
    convert_to_sql_date (Cell.str ("01/15/2023")) = "NULL" ∧
    convert_to_sql_date (Cell.str ("2023-02-29")) = "NULL" := by
  decide

/-- C5 amended: for a non-missing, non-empty value, date coercion emits the
quoted stripped input exactly when the stripped input decomposes as a
four-digit year, a one-or-two-digit month and a one-or-two-digit day
forming, under strict calendar validation, a real date (so 2023-13-01 and
01/15/2023 still yield NULL, but zero-padding of month and day is not
required); otherwise it returns NULL. -/
theorem c5_date_lenient :
    ∀ s : String, cellNullGuard (Cell.str s) = false →
      (convert_to_sql_date (Cell.str s) = sqs ++ pyStrip s ++ sqs ↔
        lenientYmd (pyStrip s)) ∧
      (¬ lenientYmd (pyStrip s) → convert_to_sql_date (Cell.str s) = "NULL") := by
  intro s hg
  have hconv : convert_to_sql_date (Cell.str s) =
      if strptimeYmdOk (pyStrip s) then sqs ++ pyStrip s ++ sqs
      else "NULL" := by
    simp [convert_to_sql_date, hg, cellToStr]
  by_cases hok : strptimeYmdOk (pyStrip s) = true
  · rw [hconv, if_pos hok]
    constructor
    · constructor
      · intro _
        exact (strptime_iff_lenient (pyStrip s)).mp hok
      · intro _
        rfl
    · intro hn
      exact absurd ((strptime_iff_lenient (pyStrip s)).mp hok) hn
  · rw [hconv, if_neg hok]
    constructor
    · constructor
      · intro h
        exact absurd h.symm (quoted_ne_null (pyStrip s))
      · intro hlen
        exact absurd ((strptime_iff_lenient (pyStrip s)).mpr hlen) hok
    · intro _
      rfl

/-- Witness for C5 at a valid date. -/
theorem c5_date_lenient_witness :
    convert_to_sql_date (Cell.str ("2023-01-15")) =
      sqs ++ pyStrip ("2023-01-15") ++ sqs :=
  ((c5_date_lenient ("2023-01-15") (by decide)).1).mpr
    ⟨['2', '0', '2', '3'], ['0', '1'], ['1', '5'], by decide, by decide,
      by decide, by decide, by decide, by decide, by decide, by decide,
      by decide, by decide, by decide, by decide⟩

/-!  Claim C6: correctness machinery for the re.sub scanners. -/

theorem isPrefixOf_length_le {pat l : List Char} (h : pat.isPrefixOf l = true) :
    pat.length ≤ l.length :=
  (List.isPrefixOf_iff_prefix.mp h).length_le

theorem rewriteScanAux_fuel (m : List Char → Option (List Char × List Char))
    (hm : ∀ l r s, m l = some (r, s) → s.length < l.length) :
    ∀ (fuel₁ fuel₂ : Nat) (l : List Char), l.length ≤ fuel₁ →
      l.length ≤ fuel₂ →
      rewriteScanAux m fuel₁ l = rewriteScanAux m fuel₂ l := by
  intro fuel₁
  induction fuel₁ with
  | zero =>
    intro fuel₂ l h1 _
    have hl : l = [] := by
      cases l with
      | nil => rfl
      | cons a t => simp at h1
    subst hl
    cases fuel₂ <;> rfl
  | succ f ih =>
    intro fuel₂ l h1 h2
    cases l with
    | nil => cases fuel₂ <;> rfl
    | cons c rest =>
      cases fuel₂ with
      | zero => simp at h2
      | succ f2 =>
        cases hm2 : m (c :: rest) with
        | none =>
          have hr1 : rest.length ≤ f := by
            simp at h1
            omega
          have hr2 : rest.length ≤ f2 := by
            simp at h2
            omega
          show
            (match m (c :: rest) with
              | some p => p.1 ++ rewriteScanAux m f p.2
              | none => c :: rewriteScanAux m f rest) =
            (match m (c :: rest) with
              | some p => p.1 ++ rewriteScanAux m f2 p.2
              | none => c :: rewriteScanAux m f2 rest)
          rw [hm2]
          show c :: rewriteScanAux m f rest = c :: rewriteScanAux m f2 rest
          rw [ih f2 rest hr1 hr2]
        | some p =>
          have hs := hm (c :: rest) p.1 p.2 (by rw [hm2])
          have hs1 : p.2.length ≤ f := by
            simp at h1 hs
            omega
          have hs2 : p.2.length ≤ f2 := by
            simp at h2 hs
            omega
          show
            (match m (c :: rest) with
              | some p => p.1 ++ rewriteScanAux m f p.2
              | none => c :: rewriteScanAux m f rest) =
            (match m (c :: rest) with
              | some p => p.1 ++ rewriteScanAux m f2 p.2
              | none => c :: rewriteScanAux m f2 rest)
          rw [hm2]
          show p.1 ++ rewriteScanAux m f p.2 = p.1 ++ rewriteScanAux m f2 p.2
          rw [ih f2 p.2 hs1 hs2]

theorem rewriteScan_append (m : List Char → Option (List Char × List Char))
    (hm : ∀ l r s, m l = some (r, s) → s.length < l.length) :
    ∀ (pre tok rep rest : List Char), tok ≠ [] →
      m (tok ++ rest) = some (rep, rest) →
      (∀ i, i < pre.length → m (pre.drop i ++ (tok ++ rest)) = none) →
      rewriteScan m (pre ++ (tok ++ rest)) =
        pre ++ (rep ++ rewriteScan m rest) := by
  intro pre
  induction pre with
  | nil =>
    intro tok rep rest htok hmatch _
    cases tok with
    | nil => exact absurd rfl htok
    | cons c ts =>
      have h2 : (c :: ts) ++ rest = c :: (ts ++ rest) := rfl
      have hmatch2 : m (c :: (ts ++ rest)) = some (rep, rest) := by
        rw [← h2]
        exact hmatch
      simp only [List.nil_append]
      rw [rewriteScan, h2]
      have h1 : (c :: (ts ++ rest)).length = (ts ++ rest).length + 1 := by
        simp
      rw [h1]
      show
        (match m (c :: (ts ++ rest)) with
          | some p => p.1 ++ rewriteScanAux m (ts ++ rest).length p.2
          | none => c :: rewriteScanAux m (ts ++ rest).length (ts ++ rest)) =
        rep ++ rewriteScan m rest
      rw [hmatch2]
      show rep ++ rewriteScanAux m (ts ++ rest).length rest =
        rep ++ rewriteScan m rest
      rw [rewriteScan]
      rw [rewriteScanAux_fuel m hm (ts ++ rest).length rest.length rest
        (by simp) (by simp)]
  | cons c pre' ih =>
    intro tok rep rest htok hmatch hnone
    have h0 : m (c :: (pre' ++ (tok ++ rest))) = none := by
      have h00 := hnone 0 (by simp)
      simpa using h00
    have hstep : rewriteScan m ((c :: pre') ++ (tok ++ rest)) =
        c :: rewriteScan m (pre' ++ (tok ++ rest)) := by
      have h2 : (c :: pre') ++ (tok ++ rest) =
          c :: (pre' ++ (tok ++ rest)) := rfl
      rw [rewriteScan, h2]
      have h1 : (c :: (pre' ++ (tok ++ rest))).length =
          (pre' ++ (tok ++ rest)).length + 1 := by
        simp
      rw [h1]
      show
        (match m (c :: (pre' ++ (tok ++ rest))) with
          | some p =>
            p.1 ++ rewriteScanAux m (pre' ++ (tok ++ rest)).length p.2
          | none =>
            c :: rewriteScanAux m (pre' ++ (tok ++ rest)).length
              (pre' ++ (tok ++ rest))) =
        c :: rewriteScan m (pre' ++ (tok ++ rest))
      rw [h0]
      show c :: rewriteScanAux m (pre' ++ (tok ++ rest)).length
          (pre' ++ (tok ++ rest)) =
        c :: rewriteScan m (pre' ++ (tok ++ rest))
      rw [rewriteScan]
    rw [hstep]
    rw [ih tok rep rest htok hmatch
      (fun i hi => by
        have h3 := hnone (i + 1) (by simp; omega)
        simpa using h3)]
    rfl

theorem takeWhile_append_stop (p : Char → Bool) :
    ∀ (ds : List Char) (c : Char) (post : List Char),
      (∀ x ∈ ds, p x = true) → p c = false →
      (ds ++ c :: post).takeWhile p = ds ∧
      (ds ++ c :: post).dropWhile p = c :: post := by
  intro ds
  induction ds with
  | nil =>
    intro c post _ hc
    simp [List.takeWhile, List.dropWhile, hc]
  | cons d t ih =>
    intro c post h hc
    have hd : p d = true := h d (by simp)
    obtain ⟨h1, h2⟩ := ih c post (fun x hx => h x (by simp [hx])) hc
    simp [List.takeWhile, List.dropWhile, hd, h1, h2]

theorem literalStep_shrink (pat rep : List Char) :
    ∀ l r s, literalStep pat rep l = some (r, s) → s.length < l.length := by
  intro l r s h
  unfold literalStep at h
  by_cases hc : (!pat.isEmpty && pat.isPrefixOf l) = true
  · rw [if_pos hc] at h
    have h2 := Option.some.inj h
    have hs : s = l.drop pat.length := (congrArg Prod.snd h2).symm
    simp only [Bool.and_eq_true, Bool.not_eq_eq_eq_not, Bool.not_true] at hc
    have hne : pat ≠ [] := by
      intro hcon
      rw [hcon] at hc
      simp at hc
    have hlen := isPrefixOf_length_le hc.2
    have hpos : 0 < pat.length := List.length_pos.mpr hne
    rw [hs, List.length_drop]
    omega
  · rw [if_neg hc] at h
    exact absurd h (by simp)

theorem literalStep_match (pat rep rest : List Char) (hp : pat ≠ []) :
    literalStep pat rep (pat ++ rest) = some (rep, rest) := by
  unfold literalStep
  rw [if_pos]
  · rw [List.drop_left]
  · simp only [Bool.and_eq_true, Bool.not_eq_eq_eq_not, Bool.not_true]
    exact ⟨by simpa using hp,
      List.isPrefixOf_iff_prefix.mpr (List.prefix_append pat rest)⟩

theorem varcharStep_shrink :
    ∀ l r s, varcharStep l = some (r, s) → s.length < l.length := by
  intro l r s h
  unfold varcharStep at h
  by_cases hp : ((("VARCHAR(").data).isPrefixOf l) = true
  · rw [if_pos hp] at h
    by_cases hc : (!((l.drop 8).takeWhile Char.isDigit).isEmpty &&
        (((l.drop 8).drop ((l.drop 8).takeWhile Char.isDigit).length).head? ==
          some (Char.ofNat 41))) = true
    · rw [if_pos hc] at h
      have h2 := Option.some.inj h
      have hs : s = (l.drop 8).drop
          (((l.drop 8).takeWhile Char.isDigit).length + 1) :=
        (congrArg Prod.snd h2).symm
      have hlen := isPrefixOf_length_le hp
      have h8 : (8 : Nat) ≤ l.length := by
        simpa using hlen
      rw [hs, List.length_drop, List.length_drop]
      omega
    · rw [if_neg hc] at h
      exact absurd h (by simp)
  · rw [if_neg hp] at h
    exact absurd h (by simp)

theorem varcharStep_match (ds post : List Char) (hne : ds ≠ [])
    (hdig : ∀ c ∈ ds, c.isDigit = true) :
    varcharStep ((("VARCHAR(").data) ++ (ds ++ Char.ofNat 41 :: post)) =
      some ((("TEXT").data), post) := by
  have hpre : (("VARCHAR(").data).isPrefixOf
      ((("VARCHAR(").data) ++ (ds ++ Char.ofNat 41 :: post)) = true :=
    List.isPrefixOf_iff_prefix.mpr (List.prefix_append ..)
  have hdrop : ((("VARCHAR(").data) ++ (ds ++ Char.ofNat 41 :: post)).drop 8 =
      ds ++ Char.ofNat 41 :: post := by
    have h8 : (8 : Nat) = (("VARCHAR(").data).length := rfl
    rw [h8, List.drop_left]
  obtain ⟨htake, hdropw⟩ :=
    takeWhile_append_stop Char.isDigit ds (Char.ofNat 41) post hdig (by decide)
  have hdl : (ds ++ Char.ofNat 41 :: post).drop ds.length =
      Char.ofNat 41 :: post := by
    have hx : ds ++ Char.ofNat 41 :: post = ds ++ (Char.ofNat 41 :: post) :=
      rfl
    rw [hx]
    exact List.drop_left ..
  have hd1 : (ds ++ Char.ofNat 41 :: post).drop (ds.length + 1) = post := by
    have hx : ds ++ Char.ofNat 41 :: post =
        (ds ++ [Char.ofNat 41]) ++ post := by
      simp
    have hy : ds.length + 1 = (ds ++ [Char.ofNat 41]).length := by
      simp
    rw [hx, hy, List.drop_left]
  simp [varcharStep, hpre, hdrop, htake, hdl, hd1, hne]

theorem decimalStep_shrink :
    ∀ l r s, decimalStep l = some (r, s) → s.length < l.length := by
  intro l r s h
  unfold decimalStep at h
  by_cases hp : ((("DECIMAL(").data).isPrefixOf l) = true
  · rw [if_pos hp] at h
    by_cases hc1 : (!((l.drop 8).takeWhile Char.isDigit).isEmpty &&
        (((l.drop 8).drop ((l.drop 8).takeWhile Char.isDigit).length).head? ==
          some ',')) = true
    · rw [if_pos hc1] at h
      by_cases hc2 : (!(((l.drop 8).drop
            ((l.drop 8).takeWhile Char.isDigit).length).tail.takeWhile
              Char.isDigit).isEmpty &&
          ((((l.drop 8).drop
            ((l.drop 8).takeWhile Char.isDigit).length).tail.drop
              (((l.drop 8).drop
                ((l.drop 8).takeWhile Char.isDigit).length).tail.takeWhile
                  Char.isDigit).length).head? == some (Char.ofNat 41))) = true
      · rw [if_pos hc2] at h
        have h2 := Option.some.inj h
        injection h2 with _ hb
        have hlen := isPrefixOf_length_le hp
        have h8 : (8 : Nat) ≤ l.length := by
          simpa using hlen
        rw [← hb, List.length_drop]
        have htail : (((l.drop 8).drop
            ((l.drop 8).takeWhile Char.isDigit).length).tail).length ≤
            l.length - 8 := by
          have ht := List.length_tail ((l.drop 8).drop
            ((l.drop 8).takeWhile Char.isDigit).length)
          have hXlen : ((l.drop 8).drop
              ((l.drop 8).takeWhile Char.isDigit).length).length =
              (l.drop 8).length -
                ((l.drop 8).takeWhile Char.isDigit).length :=
            List.length_drop ..
          have hld8 : (l.drop 8).length = l.length - 8 := List.length_drop ..
          omega
        omega
      · rw [if_neg hc2] at h
        exact absurd h (by simp)
    · rw [if_neg hc1] at h
      exact absurd h (by simp)
  · rw [if_neg hp] at h
    exact absurd h (by simp)

theorem decimalStep_match (ds es post : List Char)
    (hdne : ds ≠ []) (hene : es ≠ [])
    (hddig : ∀ c ∈ ds, c.isDigit = true)
    (hedig : ∀ c ∈ es, c.isDigit = true) :
    decimalStep ((("DECIMAL(").data) ++
        (ds ++ ',' :: (es ++ Char.ofNat 41 :: post))) =
      some ((("REAL").data), post) := by
  have hpre : (("DECIMAL(").data).isPrefixOf
      ((("DECIMAL(").data) ++ (ds ++ ',' :: (es ++ Char.ofNat 41 :: post))) =
      true :=
    List.isPrefixOf_iff_prefix.mpr (List.prefix_append ..)
  have hdrop : ((("DECIMAL(").data) ++
      (ds ++ ',' :: (es ++ Char.ofNat 41 :: post))).drop 8 =
      ds ++ ',' :: (es ++ Char.ofNat 41 :: post) := by
    have h8 : (8 : Nat) = (("DECIMAL(").data).length := rfl
    rw [h8, List.drop_left]
  obtain ⟨htake, _⟩ := takeWhile_append_stop Char.isDigit ds ','
    (es ++ Char.ofNat 41 :: post) hddig (by decide)
  have hdl : (ds ++ ',' :: (es ++ Char.ofNat 41 :: post)).drop ds.length =
      ',' :: (es ++ Char.ofNat 41 :: post) :=
    List.drop_left ..
  obtain ⟨htake2, _⟩ := takeWhile_append_stop Char.isDigit es (Char.ofNat 41)
    post hedig (by decide)
  have hd1 : (es ++ Char.ofNat 41 :: post).drop (es.length + 1) = post := by
    have hx : es ++ Char.ofNat 41 :: post =
        (es ++ [Char.ofNat 41]) ++ post := by
      simp
    have hy : es.length + 1 = (es ++ [Char.ofNat 41]).length := by
      simp
    rw [hx, hy, List.drop_left]
  have hd2 : (es ++ Char.ofNat 41 :: post).drop es.length =
      Char.ofNat 41 :: post :=
    List.drop_left ..
  simp [decimalStep, hpre, hdrop, htake, hdl, htake2, hd1, hd2, hdne, hene]

theorem commentStep_shrink :
    ∀ l r s, commentStep l = some (r, s) → s.length < l.length := by
  intro l r s h
  simp only [commentStep] at h
  by_cases hp : ((("COMMENT ON ").data).isPrefixOf l) = true
  · rw [if_pos hp] at h
    cases hbody : (l.drop 11).dropWhile (fun c => c != Char.ofNat 59) with
    | nil =>
      rw [hbody] at h
      exact absurd h (by simp)
    | cons b rest2 =>
      rw [hbody] at h
      have h2 := Option.some.inj h
      have hs : s = rest2 := (congrArg Prod.snd h2).symm
      have hlen := isPrefixOf_length_le hp
      have h11 : (11 : Nat) ≤ l.length := by
        simpa using hlen
      have hsub : (b :: rest2).length ≤ (l.drop 11).length := by
        rw [← hbody]
        exact (List.dropWhile_sublist _).length_le
      rw [List.length_drop] at hsub
      simp at hsub
      rw [hs]
      omega
  · rw [if_neg hp] at h
    exact absurd h (by simp)

theorem commentStep_match (mid post : List Char)
    (hmid : ∀ c ∈ mid, c ≠ Char.ofNat 59) :
    commentStep ((("COMMENT ON ").data) ++ (mid ++ Char.ofNat 59 :: post)) =
      some ([], post) := by
  have hpre : (("COMMENT ON ").data).isPrefixOf
      ((("COMMENT ON ").data) ++ (mid ++ Char.ofNat 59 :: post)) = true :=
    List.isPrefixOf_iff_prefix.mpr (List.prefix_append ..)
  have hdrop : ((("COMMENT ON ").data) ++
      (mid ++ Char.ofNat 59 :: post)).drop 11 =
      mid ++ Char.ofNat 59 :: post := by
    have h11 : (11 : Nat) = (("COMMENT ON ").data).length := rfl
    rw [h11, List.drop_left]
  obtain ⟨_, hdropw⟩ := takeWhile_append_stop (fun c => c != Char.ofNat 59)
    mid (Char.ofNat 59) post
    (fun x hx => by simpa using hmid x hx) (by decide)
  simp [commentStep, hpre, hdrop, hdropw]

theorem keptLines_props (l : List Char) :
    ∀ p ∈ keptLines l, p ≠ [] ∧ (("--").data).isPrefixOf p = false ∧
      ∀ x ∈ p, x ≠ nl := by
  intro p hp
  rcases List.mem_filter.mp hp with ⟨hmem, hpred⟩
  rcases List.mem_map.mp hmem with ⟨q, hq, rfl⟩
  simp only [Bool.and_eq_true, Bool.not_eq_eq_eq_not, Bool.not_true,
    List.isEmpty_eq_false] at hpred
  refine ⟨hpred.1, hpred.2, ?_⟩
  intro x hx
  exact splitOnCharAux_no_sep nl l [] (by simp) q hq x (mem_pyStripL hx)

theorem splitOnChar_joinWith (sep : Char) :
    ∀ pieces : List (List Char), pieces ≠ [] →
      (∀ q ∈ pieces, ∀ x ∈ q, x ≠ sep) →
      splitOnChar sep (joinWith sep pieces) = pieces := by
  intro pieces
  induction pieces with
  | nil =>
    intro h _
    exact absurd rfl h
  | cons x ys ih =>
    intro _ hno
    cases ys with
    | nil =>
      have hj : joinWith sep [x] = x := rfl
      rw [hj, splitOnChar,
        splitOnCharAux_all_no_sep sep x [] (hno x (by simp))]
      simp
    | cons y ys2 =>
      have hj : joinWith sep (x :: y :: ys2) =
          x ++ sep :: joinWith sep (y :: ys2) := rfl
      rw [hj, splitOnChar,
        splitOnCharAux_append sep x [] _ (hno x (by simp))]
      have hih := ih (by simp) (fun q hq => hno q (by simp [hq]))
      rw [hih]
      simp

theorem cleanedLines_props (l : List Char) :
    ∀ p ∈ splitOnChar nl (String.mk (joinWith nl (keptLines l))).data,
      joinWith nl (keptLines l) = [] ∨
        (p ≠ [] ∧ ¬ ((("--").data).isPrefixOf p = true)) := by
  intro p hp
  by_cases hL : keptLines l = []
  · left
    rw [hL]
    rfl
  · right
    have hsplit := splitOnChar_joinWith nl (keptLines l) hL
      (fun q hq => (keptLines_props l q hq).2.2)
    have hdata : (String.mk (joinWith nl (keptLines l))).data =
        joinWith nl (keptLines l) := rfl
    rw [hdata, hsplit] at hp
    obtain ⟨h1, h2, _⟩ := keptLines_props l p hp
    exact ⟨h1, by simp [h2]⟩

/-- C6: the dialect translator (a) leaves no blank line and no line-comment
line in a nonempty output, and the kept lines are exactly the stripped
survivors; (b) rewrites each occurrence of BIGINT to INTEGER and BOOLEAN to
INTEGER, each parameterised VARCHAR to TEXT and each parameterised DECIMAL
to REAL, and removes each COMMENT ON clause up to the next statement
terminator — each stated as: wherever the leftmost occurrence sits, it is
replaced and scanning continues after it; and (c) on a schema exercising
all six rules it produces exactly the expected SQLite text. -/
theorem c6_dialect_translation :
    (∀ (s : String) (p : List Char),
      p ∈ splitOnChar nl (convert_postgres_to_sqlite s).data →
        convert_postgres_to_sqlite s = "" ∨
          (p ≠ [] ∧ ¬ ((("--").data).isPrefixOf p = true))) ∧
    (∀ pre post : List Char,
      (∀ i, i < pre.length →
        literalStep (("BIGINT").data) (("INTEGER").data)
          (pre.drop i ++ ((("BIGINT").data) ++ post)) = none) →
      rewriteScan (literalStep (("BIGINT").data) (("INTEGER").data))
        (pre ++ ((("BIGINT").data) ++ post)) =
        pre ++ ((("INTEGER").data) ++
          rewriteScan (literalStep (("BIGINT").data) (("INTEGER").data))
            post)) ∧
    (∀ pre post : List Char,
      (∀ i, i < pre.length →
        literalStep (("BOOLEAN").data) (("INTEGER").data)
          (pre.drop i ++ ((("BOOLEAN").data) ++ post)) = none) →
      rewriteScan (literalStep (("BOOLEAN").data) (("INTEGER").data))
        (pre ++ ((("BOOLEAN").data) ++ post)) =
        pre ++ ((("INTEGER").data) ++
          rewriteScan (literalStep (("BOOLEAN").data) (("INTEGER").data))
            post)) ∧
    (∀ pre ds post : List Char, ds ≠ [] → (∀ c ∈ ds, c.isDigit = true) →
      (∀ i, i < pre.length →
        varcharStep (pre.drop i ++
          ((("VARCHAR(").data) ++ (ds ++ Char.ofNat 41 :: post))) = none) →
      rewriteScan varcharStep
        (pre ++ ((("VARCHAR(").data) ++ (ds ++ Char.ofNat 41 :: post))) =
        pre ++ ((("TEXT").data) ++ rewriteScan varcharStep post)) ∧
    (∀ pre ds es post : List Char, ds ≠ [] → es ≠ [] →
      (∀ c ∈ ds, c.isDigit = true) → (∀ c ∈ es, c.isDigit = true) →
      (∀ i, i < pre.length →
        decimalStep (pre.drop i ++
          ((("DECIMAL(").data) ++
            (ds ++ ',' :: (es ++ Char.ofNat 41 :: post)))) = none) →
      rewriteScan decimalStep
        (pre ++ ((("DECIMAL(").data) ++
          (ds ++ ',' :: (es ++ Char.ofNat 41 :: post)))) =
        pre ++ ((("REAL").data) ++ rewriteScan decimalStep post)) ∧
    (∀ pre mid post : List Char, (∀ c ∈ mid, c ≠ Char.ofNat 59) →
      (∀ i, i < pre.length →
        commentStep (pre.drop i ++
          ((("COMMENT ON ").data) ++ (mid ++ Char.ofNat 59 :: post))) =
            none) →
      rewriteScan commentStep
        (pre ++ ((("COMMENT ON ").data) ++ (mid ++ Char.ofNat 59 :: post))) =
        pre ++ rewriteScan commentStep post) ∧
    convert_postgres_to_sqlite
      ("CREATE TABLE t (\n  a VARCHAR(255),\n  b DECIMAL(10,2),\n  c BIGINT,\n  d BOOLEAN\n);\n\n-- note\nCOMMENT ON COLUMN t.a IS " ++
        sqs ++ "desc" ++ sqs ++ ";\n") =
      "CREATE TABLE t (\na TEXT,\nb REAL,\nc INTEGER,\nd INTEGER\n);" := by
  refine ⟨?_, ?_, ?_, ?_, ?_, ?_, by decide⟩
  · intro s p hp
    have hconv : convert_postgres_to_sqlite s =
        String.mk (joinWith nl (keptLines
          (rewriteScan (literalStep (("BOOLEAN").data) (("INTEGER").data))
            (rewriteScan (literalStep (("BIGINT").data) (("INTEGER").data))
              (rewriteScan varcharStep
                (rewriteScan decimalStep
                  (rewriteScan commentStep s.data))))))) := rfl
    rw [hconv] at hp ⊢
    have hprops := cleanedLines_props _ p hp
    rcases hprops with h | h
    · left
      rw [h]
    · exact Or.inr h
  · intro pre post hnone
    exact rewriteScan_append _ (literalStep_shrink _ _) pre
      (("BIGINT").data) (("INTEGER").data) post (by decide)
      (literalStep_match _ _ post (by decide)) hnone
  · intro pre post hnone
    exact rewriteScan_append _ (literalStep_shrink _ _) pre
      (("BOOLEAN").data) (("INTEGER").data) post (by decide)
      (literalStep_match _ _ post (by decide)) hnone
  · intro pre ds post hne hdig hnone
    have hmatch : varcharStep
        ((((("VARCHAR(").data) ++ (ds ++ [Char.ofNat 41])) ++ post)) =
        some ((("TEXT").data), post) := by
      have hv := varcharStep_match ds post hne hdig
      have harg : (("VARCHAR(").data) ++ (ds ++ Char.ofNat 41 :: post) =
          (((("VARCHAR(").data) ++ (ds ++ [Char.ofNat 41])) ++ post) := by
        simp
      rw [harg] at hv
      exact hv
    have happ := rewriteScan_append varcharStep varcharStep_shrink pre
      ((("VARCHAR(").data) ++ (ds ++ [Char.ofNat 41])) (("TEXT").data) post
      (by simp) hmatch
      (fun i hi => by
        have hn := hnone i hi
        have harg : pre.drop i ++
            ((("VARCHAR(").data) ++ (ds ++ Char.ofNat 41 :: post)) =
            pre.drop i ++
              (((("VARCHAR(").data) ++ (ds ++ [Char.ofNat 41])) ++ post) := by
          simp
        rw [harg] at hn
        exact hn)
    have harg2 : pre ++
        (((("VARCHAR(").data) ++ (ds ++ [Char.ofNat 41])) ++ post) =
        pre ++ ((("VARCHAR(").data) ++ (ds ++ Char.ofNat 41 :: post)) := by
      simp
    rw [harg2] at happ
    exact happ
  · intro pre ds es post hdne hene hddig hedig hnone
    have hmatch : decimalStep
        ((((("DECIMAL(").data) ++
          (ds ++ ',' :: (es ++ [Char.ofNat 41]))) ++ post)) =
        some ((("REAL").data), post) := by
      have hv := decimalStep_match ds es post hdne hene hddig hedig
      have harg : (("DECIMAL(").data) ++
          (ds ++ ',' :: (es ++ Char.ofNat 41 :: post)) =
          (((("DECIMAL(").data) ++
            (ds ++ ',' :: (es ++ [Char.ofNat 41]))) ++ post) := by
        simp
      rw [harg] at hv
      exact hv
    have happ := rewriteScan_append decimalStep decimalStep_shrink pre
      ((("DECIMAL(").data) ++ (ds ++ ',' :: (es ++ [Char.ofNat 41])))
      (("REAL").data) post (by simp) hmatch
      (fun i hi => by
        have hn := hnone i hi
        have harg : pre.drop i ++
            ((("DECIMAL(").data) ++
              (ds ++ ',' :: (es ++ Char.ofNat 41 :: post))) =
            pre.drop i ++
              (((("DECIMAL(").data) ++
                (ds ++ ',' :: (es ++ [Char.ofNat 41]))) ++ post) := by
          simp
        rw [harg] at hn
        exact hn)
    have harg2 : pre ++
        (((("DECIMAL(").data) ++
          (ds ++ ',' :: (es ++ [Char.ofNat 41]))) ++ post) =
        pre ++ ((("DECIMAL(").data) ++
          (ds ++ ',' :: (es ++ Char.ofNat 41 :: post))) := by
      simp
    rw [harg2] at happ
    exact happ
  · intro pre mid post hmid hnone
    have hmatch : commentStep
        ((((("COMMENT ON ").data) ++ (mid ++ [Char.ofNat 59])) ++ post)) =
        some ([], post) := by
      have hv := commentStep_match mid post hmid
      have harg : (("COMMENT ON ").data) ++ (mid ++ Char.ofNat 59 :: post) =
          (((("COMMENT ON ").data) ++ (mid ++ [Char.ofNat 59])) ++ post) := by
        simp
      rw [harg] at hv
      exact hv
    have happ := rewriteScan_append commentStep commentStep_shrink pre
      ((("COMMENT ON ").data) ++ (mid ++ [Char.ofNat 59])) [] post
      (by simp) hmatch
      (fun i hi => by
        have hn := hnone i hi
        have harg : pre.drop i ++
            ((("COMMENT ON ").data) ++ (mid ++ Char.ofNat 59 :: post)) =
            pre.drop i ++
              (((("COMMENT ON ").data) ++ (mid ++ [Char.ofNat 59])) ++ post) := by
          simp
        rw [harg] at hn
        exact hn)
    have harg2 : pre ++
        (((("COMMENT ON ").data) ++ (mid ++ [Char.ofNat 59])) ++ post) =
        pre ++ ((("COMMENT ON ").data) ++ (mid ++ Char.ofNat 59 :: post)) := by
      simp
    rw [harg2] at happ
    rw [happ]
    simp

/-- Witness for C6: each translation rule applied at a concrete site with
the no-earlier-match hypotheses discharged by computation. -/
theorem c6_dialect_translation_witness :
    rewriteScan (literalStep (("BIGINT").data) (("INTEGER").data))
      ((("x ").data) ++ ((("BIGINT").data) ++ ((" y").data))) =
      (("x ").data) ++ ((("INTEGER").data) ++
        rewriteScan (literalStep (("BIGINT").data) (("INTEGER").data))
          ((" y").data)) ∧
    rewriteScan varcharStep
      ((("a ").data) ++ ((("VARCHAR(").data) ++
        ((['2', '5', '5'] : List Char) ++ Char.ofNat 41 :: ((",").data)))) =
      (("a ").data) ++ ((("TEXT").data) ++ rewriteScan varcharStep ((",").data)) ∧
    rewriteScan commentStep
      ((("x;\n").data) ++ ((("COMMENT ON ").data) ++
        ((("COLUMN t").data) ++ Char.ofNat 59 :: (("\n").data)))) =
      (("x;\n").data) ++ rewriteScan commentStep (("\n").data) :=
  ⟨c6_dialect_translation.2.1 (("x ").data) ((" y").data) (by decide),
    c6_dialect_translation.2.2.2.1 (("a ").data) ['2', '5', '5'] ((",").data)
      (by decide) (by decide) (by decide),
    c6_dialect_translation.2.2.2.2.2.1 (("x;\n").data) (("COLUMN t").data)
      (("\n").data) (by decide) (by decide)⟩

end DeepSight
